import Mathlib

/-!
Verification development for the idefix voxelization core (`idefix/vxl.py`,
with `bbox` from `idefix/utils.py`).

Rationals (`ℚ`) stand in for Python floats: every operation the source
performs on the inputs considered here (min, max, truncation, linear
interpolation, histogram counting, division) is exact rational arithmetic,
so the embedding is faithful up to the float/real distinction.

Masked numpy arrays are embedded as a shape plus total value/mask functions
on multi-indices; only in-range indices are meaningful, matching numpy where
out-of-range access is an error.
-/

namespace Idefix

/-- Truncation toward zero, as `np.trunc` (vxl.py line 86). -/
def ratTrunc (q : ℚ) : ℤ :=
  if 0 ≤ q then ⌊q⌋ else ⌈q⌉

/-- `np.linspace a b num`: `num` evenly spaced samples from `a` to `b`.
The `k`-th sample is `a + k * (b - a) / (num - 1)`; for `num = 1` the sole
sample is `a`, which the formula also yields because `x / 0 = 0` in `ℚ`. -/
def linspace (a b : ℚ) (num : ℕ) : List ℚ :=
  (List.range num).map (fun k : ℕ => a + (k : ℚ) * (b - a) / ((num : ℚ) - 1))

/-- Axis-`i` coordinates of a point list (column `i` of the matrix). -/
def coords (spatial : List (List ℚ)) (i : ℕ) : List ℚ :=
  spatial.map (fun p => p.getD i 0)

/-- Component `i` of `np.min(data, axis=0)`: the lower bounding-box corner
computed by `bbox` (utils.py). Junk `0` on an empty point list, where numpy
raises instead. -/
def axisMin (spatial : List (List ℚ)) (i : ℕ) : ℚ :=
  match coords spatial i with
  | [] => 0
  | c :: cs => cs.foldl min c

/-- Component `i` of `np.max(data, axis=0)`: the upper bounding-box corner
computed by `bbox` (utils.py). -/
def axisMax (spatial : List (List ℚ)) (i : ℕ) : ℚ :=
  match coords spatial i with
  | [] => 0
  | c :: cs => cs.foldl max c

/-- Failure conditions of `get_grid` (both are `ValueError` in the source;
the spec distinguishes them as `DimensionMismatch` and `InvalidStep`). -/
inductive GridErr where
  | dimensionMismatch
  | invalidStep
deriving DecidableEq

/-- The `step` argument of `get_grid`: a scalar or a per-axis sequence
(Python distinguishes them with `iter(step)`). `none` is Python `None`,
the documented undivided-axis sentinel. -/
inductive StepArg where
  | scalar (s : Option ℚ)
  | seq (l : List (Option ℚ))

/-- Python `if s and s <= 0` on one step entry (vxl.py line 32):
`None` and `0` are falsy, so only strictly negative numbers qualify. -/
def badStep : Option ℚ → Bool
  | none => false
  | some v => decide (v ≠ 0) && decide (v ≤ 0)

/-- `_ui_step` (vxl.py lines 18-36): length check for sequence steps, then
the non-positivity check on every entry. -/
def uiStep (step : StepArg) (n : ℕ) : Except GridErr (List (Option ℚ)) :=
  match step with
  | .seq l =>
      if l.length ≠ n then .error .dimensionMismatch
      else if l.any badStep then .error .invalidStep
      else .ok l
  | .scalar s =>
      if (List.replicate n s).any badStep then .error .invalidStep
      else .ok (List.replicate n s)

/-- One axis of the grid: the loop body of `get_grid` (vxl.py lines 83-89).
`if a_s:` means the linspace branch runs exactly when the entry is a nonzero
number. The `Int.toNat` on the bin count is exact for the reachable case
(`uiStep` has already rejected negative steps, so the truncated quotient is
nonnegative whenever `amin ≤ amax`). -/
def edges1 (amin amax : ℚ) (s : Option ℚ) : List ℚ :=
  match s with
  | some v =>
      if v ≠ 0 then
        linspace amin (amin + ((ratTrunc ((amax - amin) / v)).toNat : ℚ) * v)
          ((ratTrunc ((amax - amin) / v)).toNat + 1)
      else [amin, amax + 1]
  | none => [amin, amax + 1]

/-- `get_grid` (vxl.py lines 38-91): bounding box, step validation, then one
edge array per axis. The dimensionality is `np.array(spatial).shape[-1]`,
i.e. the common point length for a rectangular point list. -/
def getGrid (spatial : List (List ℚ)) (step : StepArg) :
    Except GridErr (List (List ℚ)) :=
  match uiStep step (spatial.headD []).length with
  | .error e => .error e
  | .ok steps =>
      .ok ((List.range (spatial.headD []).length).map (fun i =>
        edges1 (axisMin spatial i) (axisMax spatial i) (steps.getD i none)))

/-- Nonempty rectangular point set of dimensionality `n` (the shape
`(m, n)` arrays the source operates on; `bbox` raises on empty input). -/
abbrev Rect (n : ℕ) (spatial : List (List ℚ)) : Prop :=
  spatial ≠ [] ∧ ∀ p ∈ spatial, p.length = n

/-- Bin index of coordinate `x` against one strictly increasing edge array,
following `np.histogramdd`: half-open bins `[e(j), e(j+1))`, except that a
point exactly on the outermost right edge is placed in the last bin; points
outside `[e(0), e(last)]` are not counted. -/
def binIndex (edges : List ℚ) (x : ℚ) : Option ℕ :=
  if edges.length < 2 then none
  else if x = edges.getD (edges.length - 1) 0 then some (edges.length - 2)
  else (List.range (edges.length - 1)).find?
    (fun j => decide (edges.getD j 0 ≤ x) && decide (x < edges.getD (j + 1) 0))

/-- Combine per-axis optional indices: all axes must be in range. -/
def seqOption : List (Option ℕ) → Option (List ℕ)
  | [] => some []
  | o :: os =>
      match o, seqOption os with
      | some k, some ks => some (k :: ks)
      | _, _ => none

/-- Multi-dimensional bin of a point: `some` multi-index iff the point is
counted by `np.histogramdd` (in range on every axis, dimensions matching). -/
def pointBins (grid : List (List ℚ)) (p : List ℚ) : Option (List ℕ) :=
  if p.length = grid.length then
    seqOption ((p.zip grid).map (fun pe => binIndex pe.2 pe.1))
  else none

/-- The geographic-order shape of the histogram: `[len(edges[i]) - 1]`. -/
def gridShape (grid : List (List ℚ)) : List ℕ :=
  grid.map (fun e => e.length - 1)

/-- The points of `spatial` that fall in the grid cell `gidx`
(geographic-order multi-index). -/
def cellPts (grid : List (List ℚ)) (spatial : List (List ℚ)) (gidx : List ℕ) :
    List (List ℚ) :=
  spatial.filter (fun p => decide (pointBins grid p = some gidx))

/-- The (point, feature) pairs falling in cell `gidx`; co-indexing of the
feature vector with the point list is by position, as in numpy. -/
def cellPairs (grid : List (List ℚ)) (spatial : List (List ℚ)) (feature : List ℚ)
    (gidx : List ℕ) : List (List ℚ × ℚ) :=
  (spatial.zip feature).filter (fun pf => decide (pointBins grid pf.1 = some gidx))

/-- Number of points in cell `gidx` whose feature value is `v` (the density
histogram of `spatial[feature == v]` used by `_bin_mode`). -/
def cellVCount (grid : List (List ℚ)) (spatial : List (List ℚ)) (feature : List ℚ)
    (v : ℚ) (gidx : List ℕ) : ℕ :=
  ((spatial.zip feature).filter
    (fun pf => decide (pf.2 = v) && decide (pointBins grid pf.1 = some gidx))).length

/-- A masked n-dimensional array: shape plus total value/mask functions on
multi-indices (mask `true` = "no data"). Only indices valid for `shape` are
meaningful. -/
structure MGrid where
  shape : List ℕ
  val : List ℕ → ℚ
  mask : List ℕ → Bool

/-- Componentwise validity of a multi-index for a shape. -/
def validIdx (shape idx : List ℕ) : Bool :=
  decide (idx.length = shape.length) && (idx.zip shape).all (fun p => decide (p.1 < p.2))

/-- Swap of the two leading axes of a shape (`np.swapaxes(r, 0, 1)`). -/
def swap01 : List ℕ → List ℕ
  | i :: j :: r => j :: i :: r
  | l => l

/-- Index of the geographic-order array that lands at index `idx` of
`_geo_to_np_coordinate`'s output: `np.flip(np.swapaxes(raster, 0, 1), 0)`
satisfies `out[i, j, ...] = in[j, shape_in[1] - 1 - i, ...]`. -/
def geoSrcIdx (shape : List ℕ) : List ℕ → List ℕ
  | i :: j :: r => j :: (shape.getD 1 0 - 1 - i) :: r
  | l => l

/-- Index of the storage-order array that lands at index `idx` of
`_np_to_geo_coordinate`'s output: `np.swapaxes(np.flip(raster, 0), 1, 0)`
satisfies `out[i, j, ...] = in[shape_in[0] - 1 - j, i, ...]`. -/
def npSrcIdx (shape : List ℕ) : List ℕ → List ℕ
  | i :: j :: r => (shape.getD 0 0 - 1 - j) :: i :: r
  | l => l

/-- `_bin_density` (vxl.py lines 143-148): histogram counts, masked at 0. -/
def binDensity (grid spatial : List (List ℚ)) : MGrid :=
  { shape := gridShape grid
    val := fun gidx => ((cellPts grid spatial gidx).length : ℚ)
    mask := fun gidx => decide ((cellPts grid spatial gidx).length = 0) }

/-- `_bin_mean` (vxl.py lines 150-157): weighted histogram over plain
histogram; masked where the count is 0 (there `np.divide` with `where=`
leaves the cell unspecified — represented by `ℚ`'s `x / 0 = 0` junk). -/
def binMean (grid spatial : List (List ℚ)) (feature : List ℚ) : MGrid :=
  { shape := gridShape grid
    val := fun gidx =>
      ((cellPairs grid spatial feature gidx).map Prod.snd).sum /
        ((cellPts grid spatial gidx).length : ℚ)
    mask := fun gidx => decide ((cellPts grid spatial gidx).length = 0) }

/-- `np.unique(feature)`: the distinct values, in ascending order. -/
def uniqueSorted (l : List ℚ) : List ℚ :=
  List.insertionSort (· ≤ ·) l.dedup

/-- The running (best score, best value) loop of `_bin_mode` at one cell:
start at `(0, 0)` (`np.zeros`), overwrite when a candidate's score strictly
exceeds the current best. -/
def modeFold (c : ℚ → ℕ) (vs : List ℚ) : ℕ × ℚ :=
  vs.foldl (fun acc v => if acc.1 < c v then (c v, v) else acc) (0, 0)

/-- `_bin_mode` (vxl.py lines 159-183): iterate the density histograms of
the distinct feature values in ascending order; a cell is masked iff its
final best score is 0. (The `score > max_score` comparison on the masked
`score` array uses the underlying count data, which is 0 exactly at the
masked cells, so plain counts are faithful.) -/
def binMode (grid spatial : List (List ℚ)) (feature : List ℚ) : MGrid :=
  { shape := gridShape grid
    val := fun gidx =>
      (modeFold (fun v => cellVCount grid spatial feature v gidx)
        (uniqueSorted feature)).2
    mask := fun gidx =>
      decide ((modeFold (fun v => cellVCount grid spatial feature v gidx)
        (uniqueSorted feature)).1 = 0) }

/-- `_geo_to_np_coordinate` (vxl.py lines 288-294) acting on a masked
array: numpy's `flip`/`swapaxes` move value and mask together. -/
def geoToNpM (a : MGrid) : MGrid :=
  { shape := swap01 a.shape
    val := fun idx => a.val (geoSrcIdx a.shape idx)
    mask := fun idx => a.mask (geoSrcIdx a.shape idx) }

/-- Failure conditions of `bin` (`ValueError` for the missing feature,
`NotImplementedError` for an unknown method). -/
inductive BinErr where
  | missingFeature
  | unsupportedMethod
deriving DecidableEq

/-- `bin` (vxl.py lines 93-141): method dispatch. Note the source order:
for any non-`density` method the feature check comes first, and only then
the method name is examined. -/
def bin (grid spatial : List (List ℚ)) (feature : Option (List ℚ))
    (method : String) : Except BinErr MGrid :=
  if method = "density" then .ok (geoToNpM (binDensity grid spatial))
  else
    match feature with
    | none => .error .missingFeature
    | some f =>
        if method = "mean" then .ok (geoToNpM (binMean grid spatial f))
        else if method = "mode" then .ok (geoToNpM (binMode grid spatial f))
        else .error .unsupportedMethod

/-- `_bin_insight` (vxl.py lines 185-188): predicted number of cells,
`np.prod([x.size - 1 for x in grid])`. -/
def insightCells (grid : List (List ℚ)) : ℕ :=
  (grid.map (fun x => x.length - 1)).prod

/-- `np.dtype(float).itemsize`. -/
def floatItemsize : ℕ := 8

/-- `np.dtype(np.bool).itemsize`. -/
def boolItemsize : ℕ := 1

/-- `_bin_density_insight` (vxl.py lines 190-194): density + result data +
result mask, per cell. -/
def binDensityInsight (grid : List (List ℚ)) : ℕ :=
  insightCells grid * (floatItemsize + floatItemsize + boolItemsize)

/-- `_bin_mean_insight` (vxl.py lines 196-202). -/
def binMeanInsight (grid : List (List ℚ)) : ℕ :=
  (floatItemsize + floatItemsize + boolItemsize + floatItemsize + floatItemsize) *
    insightCells grid

/-- `_bin_mode_insight` (vxl.py lines 204-211). -/
def binModeInsight (grid : List (List ℚ)) : ℕ :=
  insightCells grid *
    (floatItemsize + floatItemsize +
      max (floatItemsize + boolItemsize) (floatItemsize + boolItemsize))

/-- Failure conditions of `insight` (`IOError` for a malformed size string
or an unknown method, `MemoryError` for an exceeded budget). -/
inductive InsErr where
  | malformedSizeString
  | wrongMethod
  | memoryBudgetExceeded
deriving DecidableEq

/-- The `mem_limit` argument: a raw byte count, or a human-readable size
string pre-split into its numeric part and its suffix (Python parses the
numeric part with `float(...)`; the split is abstracted since the claims
only concern recognized/unrecognized suffixes). -/
inductive MemLimit where
  | raw (q : ℚ)
  | human (num : ℚ) (suffix : String)

/-- `_human_to_bytes` (vxl.py lines 281-286): suffixes KB/MB/GB in binary
powers of 1024, checked in that order; anything else is rejected. -/
def humanToBytes (num : ℚ) (suffix : String) : Except InsErr ℚ :=
  if suffix = "KB" then .ok (num * 1024)
  else if suffix = "MB" then .ok (num * 1024 ^ 2)
  else if suffix = "GB" then .ok (num * 1024 ^ 3)
  else .error .malformedSizeString

/-- The `mem_limit` normalization at the top of `insight` (line 242-243). -/
def resolveLimit : Option MemLimit → Except InsErr (Option ℚ)
  | none => .ok none
  | some (.raw q) => .ok (some q)
  | some (.human v suf) => (humanToBytes v suf).map some

/-- The method dispatch of `insight` (lines 245-252): the per-method
estimate, or `none` for an unknown method. -/
def methodUsage (grid : List (List ℚ)) (method : String) : Option ℕ :=
  if method = "density" then some (binDensityInsight grid)
  else if method = "mean" then some (binMeanInsight grid)
  else if method = "mode" then some (binModeInsight grid)
  else none

/-- `insight` (vxl.py lines 213-269); the `feature` argument is ignored by
every `_bin_*_insight` helper and the log/stdout rendering has no effect on
the result, so neither is modelled. The budget check is Python
`if mem_limit and mem_usage > mem_limit`, where a limit of `0` is falsy. -/
def insight (grid : List (List ℚ)) (method : String)
    (memLimit : Option MemLimit) : Except InsErr ℕ :=
  match resolveLimit memLimit with
  | .error e => .error e
  | .ok lim =>
      match methodUsage grid method with
      | none => .error .wrongMethod
      | some usage =>
          match lim with
          | some l =>
              if l ≠ 0 ∧ (usage : ℚ) > l then .error .memoryBudgetExceeded
              else .ok usage
          | none => .ok usage

/-- A 3-D masked voxel grid, the input shape `squash` documents. -/
structure VGrid3 where
  s0 : ℕ
  s1 : ℕ
  s2 : ℕ
  val : ℕ → ℕ → ℕ → ℚ
  mask : ℕ → ℕ → ℕ → Bool

/-- A 2-D masked raster, the output of `squash`. -/
structure Raster2 where
  r0 : ℕ
  r1 : ℕ
  val : ℕ → ℕ → ℚ
  mask : ℕ → ℕ → Bool

/-- Size of the voxel grid along the squashed axis. -/
def sizeAlong (g : VGrid3) (axis : ℕ) : ℕ :=
  match axis with
  | 0 => g.s0
  | 1 => g.s1
  | _ => g.s2

/-- Shape of the reduced raster (the remaining two axes, in order). -/
def restDims (g : VGrid3) (axis : ℕ) : ℕ × ℕ :=
  match axis with
  | 0 => (g.s1, g.s2)
  | 1 => (g.s0, g.s2)
  | _ => (g.s0, g.s1)

/-- Value at column position `(i, j)` and index `k` along the squashed
axis (the `insert` of the chosen index at position `axis` in line 313). -/
def valAt3 (g : VGrid3) (axis k i j : ℕ) : ℚ :=
  match axis with
  | 0 => g.val k i j
  | 1 => g.val i k j
  | _ => g.val i j k

/-- Mask at column position `(i, j)` and index `k` along the squashed axis. -/
def maskAt3 (g : VGrid3) (axis k i j : ℕ) : Bool :=
  match axis with
  | 0 => g.mask k i j
  | 1 => g.mask i k j
  | _ => g.mask i j k

/-- The valid (non-masked) indices along the squashed axis in the column
`(i, j)`, in ascending order; these are exactly the entries the masked
`squash_mask` of `_squash_position` carries in that column. -/
def validAlong (g : VGrid3) (axis i j : ℕ) : List ℕ :=
  (List.range (sizeAlong g axis)).filter (fun k => !(maskAt3 g axis k i j))

/-- Median of an already ascending list, as `np.ma.median` over the valid
entries: the middle element, or the mean of the two middle elements. -/
def medianSorted (l : List ℚ) : ℚ :=
  if l.length % 2 = 1 then l.getD (l.length / 2) 0
  else (l.getD (l.length / 2 - 1) 0 + l.getD (l.length / 2) 0) / 2

/-- The index `_squash_position` selects in one column: `max` for `'top'`,
truncated (`astype(np.uint)`, nonnegative here) median for `'center'`,
`min` for `'bottom'`. Only called on the three positional method names. -/
def chosenIdx (method : String) (l : List ℕ) : ℕ :=
  if method = "top" then l.foldl max 0
  else if method = "center" then
    (⌊medianSorted (l.map (fun k : ℕ => (k : ℚ)))⌋).toNat
  else
    match l with
    | [] => 0
    | h :: t => t.foldl min h

/-- `_squash_position` (vxl.py lines 299-318). A column with no valid cell
keeps the masked zero of `np.zeros_like(squash_id)` (whose mask is inherited
from the all-masked reduction); otherwise the raster takes the voxel-grid
element at the selected index — including that element's own mask, since
assigning a masked element into the raster masks the target cell. -/
def squashPos (g : VGrid3) (method : String) (axis : ℕ) : Raster2 :=
  { r0 := (restDims g axis).1
    r1 := (restDims g axis).2
    val := fun i j =>
      if (validAlong g axis i j).isEmpty then 0
      else valAt3 g axis (chosenIdx method (validAlong g axis i j)) i j
    mask := fun i j =>
      if (validAlong g axis i j).isEmpty then true
      else maskAt3 g axis (chosenIdx method (validAlong g axis i j)) i j }

/-- The positional dispatch of `squash` (vxl.py lines 354-355). The
statistical methods (`count`, `mean`, `median`, `min`, `max`, `std`) reduce
cell values instead of positions and are outside the claims considered
here, so they are left unmodelled (`none` also stands for them below, never
for an error). -/
def squash (g : VGrid3) (method : String) (axis : ℕ) : Option Raster2 :=
  if method = "top" ∨ method = "center" ∨ method = "bottom" then
    some (squashPos g method axis)
  else none

/-- A plain (unmasked) n-dimensional array of rationals, for the coordinate
transforms considered on arbitrary arrays. -/
structure NDA where
  shape : List ℕ
  val : List ℕ → ℚ

/-- `_geo_to_np_coordinate` (vxl.py lines 288-294) on a plain array:
`np.flip(np.swapaxes(raster, 0, 1), 0)`. -/
def geoToNp (a : NDA) : NDA :=
  { shape := swap01 a.shape, val := fun idx => a.val (geoSrcIdx a.shape idx) }

/-- `_np_to_geo_coordinate` (vxl.py lines 296-297) on a plain array:
`np.swapaxes(np.flip(raster, 0), 1, 0)`. -/
def npToGeo (a : NDA) : NDA :=
  { shape := swap01 a.shape, val := fun idx => a.val (npSrcIdx a.shape idx) }

/-- Numpy array equality: same shape and the same entry at every valid
index (entries at invalid indices are not part of the array). -/
def ExtEq (a b : NDA) : Prop :=
  a.shape = b.shape ∧ ∀ idx, validIdx a.shape idx = true → a.val idx = b.val idx

/-! ### Claim C1: shape of the grid returned by `bin` -/

/-- C1 counterexample: the claim says axis `i` of the grid returned by
`bin` has `len(edges[i]) - 1` cells. For the 2-axis grid with 2 bins on
axis 0 and 1 bin on axis 1, `bin` returns shape `[1, 2]`, not the claimed
`[2, 1]`: the final geographic-to-storage transform swaps the leading
axes. -/
theorem c1_shape_counterexample :
    (bin [[(0 : ℚ), 1, 2], [0, 1]] [[1/2, 1/2]] none ("density")).map MGrid.shape =
      Except.ok [1, 2]
    ∧ [1, 2] ≠ gridShape [[(0 : ℚ), 1, 2], [0, 1]] :=
  ⟨rfl, by decide⟩

/-- C1 (amended): for every grid spec with at least two axes, every point
set, feature and supported method, the VoxelGrid returned by `bin` has the
storage-order shape `swap01 [len(edges[i]) - 1 for i in axes]`: axis 0 of
the result has `len(edges[1]) - 1` cells, axis 1 has `len(edges[0]) - 1`
cells, and every further axis `i` keeps `len(edges[i]) - 1` cells. -/
theorem c1_bin_shape (grid spatial : List (List ℚ)) (feature : Option (List ℚ))
    (method : String) (g : MGrid) (hn : 2 ≤ grid.length)
    (h : bin grid spatial feature method = .ok g) :
    g.shape = swap01 (gridShape grid) := by
  unfold bin at h
  split at h
  · injection h with h2
    subst h2
    rfl
  · cases feature with
    | none => exact Except.noConfusion h
    | some f =>
        replace h :
            (if method = "mean" then
              (Except.ok (geoToNpM (binMean grid spatial f)) : Except BinErr MGrid)
            else if method = "mode" then .ok (geoToNpM (binMode grid spatial f))
            else .error .unsupportedMethod) = .ok g := h
        split at h
        · injection h with h2
          subst h2
          rfl
        · split at h
          · injection h with h2
            subst h2
            rfl
          · exact Except.noConfusion h

/-- C1 witness: the amended shape statement evaluated on the concrete
2-bin-by-1-bin grid. -/
theorem c1_bin_shape_witness :
    (bin [[(0 : ℚ), 1, 2], [0, 1]] [[1/2, 1/2]] none ("density")).map MGrid.shape =
      Except.ok (swap01 (gridShape [[(0 : ℚ), 1, 2], [0, 1]])) := by
  have h : bin [[(0 : ℚ), 1, 2], [0, 1]] [[1/2, 1/2]] none ("density") =
      .ok (geoToNpM (binDensity [[(0 : ℚ), 1, 2], [0, 1]] [[1/2, 1/2]])) := rfl
  rw [h]
  exact congrArg Except.ok
    (c1_bin_shape [[(0 : ℚ), 1, 2], [0, 1]] [[1/2, 1/2]] none ("density") _
      (by decide) h)

/-! ### Claim C3: error precedence in `bin` method dispatch -/

/-- C3 counterexample: the claim says any method outside
{density, mean, mode} fails with `UnsupportedMethod`, and that
`MissingFeature` is raised exactly for a feature-requiring method without a
feature. But for an unknown method with no feature, `bin` checks the
feature first and raises `MissingFeature`. -/
theorem c3_dispatch_counterexample :
    bin [[(0 : ℚ), 1], [0, 1]] [[1/2, 1/2]] none ("bogus") = .error .missingFeature
    ∧ BinErr.missingFeature ≠ BinErr.unsupportedMethod :=
  ⟨rfl, by decide⟩

/-- C3 (amended): with a feature supplied, a method outside
{density, mean, mode} fails with `UnsupportedMethod`; without a feature,
every non-density method (unknown ones included) fails with
`MissingFeature`, because `bin` checks the feature before the method
name. -/
theorem c3_bin_dispatch (grid spatial : List (List ℚ)) (f : List ℚ)
    (method : String) :
    (method ≠ "density" → method ≠ "mean" → method ≠ "mode" →
      bin grid spatial (some f) method = .error .unsupportedMethod)
    ∧ (method ≠ "density" → bin grid spatial none method = .error .missingFeature) := by
  constructor
  · intro h1 h2 h3
    unfold bin
    rw [if_neg h1]
    show (if method = "mean" then
          (Except.ok (geoToNpM (binMean grid spatial f)) : Except BinErr MGrid)
        else if method = "mode" then .ok (geoToNpM (binMode grid spatial f))
        else .error .unsupportedMethod) = .error .unsupportedMethod
    rw [if_neg h2, if_neg h3]
  · intro h1
    unfold bin
    rw [if_neg h1]

/-- C3 witness: the amended dispatch evaluated at the unknown method
`'bogus'`. -/
theorem c3_bin_dispatch_witness :
    bin [[(0 : ℚ), 1], [0, 1]] [[1/2, 1/2]] (some [1]) ("bogus") =
      .error .unsupportedMethod
    ∧ bin [[(0 : ℚ), 1], [0, 1]] [[1/2, 1/2]] none ("bogus") =
      .error .missingFeature :=
  ⟨(c3_bin_dispatch [[(0 : ℚ), 1], [0, 1]] [[1/2, 1/2]] [1] ("bogus")).1
      (by decide) (by decide) (by decide),
    (c3_bin_dispatch [[(0 : ℚ), 1], [0, 1]] [[1/2, 1/2]] [1] ("bogus")).2
      (by decide)⟩

/-! ### Claim C4: the memory budget check of `insight` -/

/-- C4 counterexample: with `mem_limit = 0` — a set byte count exceeded by
the positive estimate — `insight` returns the estimate instead of failing,
because Python `if mem_limit and ...` treats `0` as unset. -/
theorem c4_budget_counterexample :
    insight [[(0 : ℚ), 1]] ("density") (some (.raw 0)) = .ok 17
    ∧ (0 : ℚ) < ((17 : ℕ) : ℚ)
    ∧ insight [[(0 : ℚ), 1]] ("density") (some (.raw 0)) ≠
        .error .memoryBudgetExceeded := by
  refine ⟨rfl, by decide, fun he => ?_⟩
  have h1 : insight [[(0 : ℚ), 1]] ("density") (some (.raw 0)) = .ok 17 := rfl
  rw [he] at h1
  exact Except.noConfusion h1

/-- C4 (amended): for a supported method and a resolving memory limit `l`,
`insight` fails with `MemoryBudgetExceeded` when `l` is nonzero and the
estimate exceeds it, and otherwise (estimate within the limit, or limit
zero) returns the estimate unchanged. -/
theorem c4_insight_budget (grid : List (List ℚ)) (m : String)
    (ms : Option MemLimit) (l : ℚ) (u : ℕ)
    (hl : resolveLimit ms = .ok (some l)) (hu : methodUsage grid m = some u) :
    ((l ≠ 0 ∧ (u : ℚ) > l) → insight grid m ms = .error .memoryBudgetExceeded)
    ∧ (¬(l ≠ 0 ∧ (u : ℚ) > l) → insight grid m ms = .ok u) := by
  have key : insight grid m ms =
      (if l ≠ 0 ∧ (u : ℚ) > l then .error .memoryBudgetExceeded else .ok u) := by
    unfold insight
    rw [hl, hu]
  constructor
  · intro hc
    rw [key, if_pos hc]
  · intro hc
    rw [key, if_neg hc]

/-- C4 witness: a 1-cell density grid (estimate 17 bytes) against the raw
limits 5 (exceeded: fails) and 1024 (not exceeded: returns 17). -/
theorem c4_insight_budget_witness :
    insight [[(0 : ℚ), 1]] ("density") (some (.raw 5)) =
      .error .memoryBudgetExceeded
    ∧ insight [[(0 : ℚ), 1]] ("density") (some (.raw 1024)) = .ok 17 :=
  ⟨(c4_insight_budget [[(0 : ℚ), 1]] ("density") (some (.raw 5)) 5 17 rfl rfl).1
      (by constructor <;> decide),
    (c4_insight_budget [[(0 : ℚ), 1]] ("density") (some (.raw 1024)) 1024 17
      rfl rfl).2 (by decide)⟩

/-! ### Claims C2 and C10: step validation in `get_grid` -/

/-- C2 counterexample: a declared step of `0` is non-positive, yet
`get_grid` succeeds (Python `if s and s <= 0` skips falsy `0`), so the
claim that every non-positive declared step fails with `InvalidStep` is
false. -/
theorem c2_step_counterexample :
    (getGrid [[(0 : ℚ)]] (.scalar (some 0))).isOk = true
    ∧ getGrid [[(0 : ℚ)]] (.scalar (some 0)) ≠ .error .invalidStep := by
  refine ⟨rfl, fun he => ?_⟩
  have h1 : (getGrid [[(0 : ℚ)]] (.scalar (some 0))).isOk = true := rfl
  rw [he] at h1
  exact Bool.noConfusion h1

/-- C2 (amended): on a nonempty rectangular point set of dimensionality
`n`, a step sequence whose length differs from `n` fails with
`DimensionMismatch` (this check runs first); a step sequence of the right
length containing a strictly negative value fails with `InvalidStep`, as
does a strictly negative scalar step. A declared step of `0` does not fail
(it is treated as the undivided-axis sentinel, see `c10_zero_step`). -/
theorem uiStep_seq (l : List (Option ℚ)) (n : ℕ) :
    uiStep (.seq l) n =
      if l.length ≠ n then .error .dimensionMismatch
      else if l.any badStep then .error .invalidStep
      else .ok l := rfl

theorem uiStep_scalar (s : Option ℚ) (n : ℕ) :
    uiStep (.scalar s) n =
      if (List.replicate n s).any badStep then .error .invalidStep
      else .ok (List.replicate n s) := rfl

theorem getGrid_err (spatial : List (List ℚ)) (step : StepArg) (e : GridErr)
    (h : uiStep step (spatial.headD []).length = .error e) :
    getGrid spatial step = .error e := by
  unfold getGrid
  rw [h]

theorem badStep_neg (v : ℚ) (hv : v < 0) : badStep (some v) = true := by
  show (decide (v ≠ 0) && decide (v ≤ 0)) = true
  simp only [Bool.and_eq_true, decide_eq_true_eq]
  exact ⟨ne_of_lt hv, le_of_lt hv⟩

theorem c2_get_grid_errors (spatial : List (List ℚ)) (n : ℕ)
    (hn : n = (spatial.headD []).length) (hrect : Rect n spatial) :
    (∀ l : List (Option ℚ), l.length ≠ n →
        getGrid spatial (.seq l) = .error .dimensionMismatch)
    ∧ (∀ l : List (Option ℚ), l.length = n → (∃ v : ℚ, some v ∈ l ∧ v < 0) →
        getGrid spatial (.seq l) = .error .invalidStep)
    ∧ (∀ v : ℚ, v < 0 → 0 < n →
        getGrid spatial (.scalar (some v)) = .error .invalidStep) := by
  subst hn
  refine ⟨?_, ?_, ?_⟩
  · intro l hl
    apply getGrid_err
    rw [uiStep_seq, if_pos hl]
  · rintro l hl ⟨v, hmem, hv⟩
    have hbad : l.any badStep = true :=
      List.any_eq_true.mpr ⟨some v, hmem, badStep_neg v hv⟩
    apply getGrid_err
    rw [uiStep_seq, if_neg (fun hc => hc hl), if_pos hbad]
  · intro v hv hn0
    have hbad :
        (List.replicate (spatial.headD []).length (some v)).any badStep = true :=
      List.any_eq_true.mpr
        ⟨some v, List.mem_replicate.mpr ⟨Nat.pos_iff_ne_zero.mp hn0, rfl⟩,
          badStep_neg v hv⟩
    apply getGrid_err
    rw [uiStep_scalar, if_pos hbad]

/-- C2 witness: a wrong-length sequence and a negative scalar on a concrete
1-D point set. -/
theorem c2_get_grid_errors_witness :
    getGrid [[(0 : ℚ)], [2]] (.seq []) = .error .dimensionMismatch
    ∧ getGrid [[(0 : ℚ)], [2]] (.scalar (some (-1))) = .error .invalidStep :=
  ⟨(c2_get_grid_errors [[(0 : ℚ)], [2]] 1 rfl (by decide)).1 [] (by decide),
    (c2_get_grid_errors [[(0 : ℚ)], [2]] 1 rfl (by decide)).2.2 (-1)
      (by decide) (by decide)⟩

/-- `getD` of a mapped range evaluates the function. -/
theorem getD_map_range {α : Type} (n i : ℕ) (hi : i < n) (f : ℕ → α) (d : α) :
    ((List.range n).map f).getD i d = f i := by
  have hl : i < ((List.range n).map f).length := by simpa using hi
  rw [List.getD_eq_getElem?_getD, List.getElem?_eq_getElem hl]
  simp

/-- C10 (confirmed): a per-axis declared step of `0` is falsy in both
checks of `_ui_step` and in the `if a_s:` of `get_grid`, so the call
succeeds and that axis gets the undivided single-bin pair
`[amin, amax + 1]`. -/
theorem c10_zero_step (spatial : List (List ℚ)) (n : ℕ) (step : StepArg)
    (steps : List (Option ℚ)) (i : ℕ)
    (hn : n = (spatial.headD []).length) (hrect : Rect n spatial)
    (hui : uiStep step n = .ok steps) (hi : i < n)
    (hz : steps.getD i none = some 0) :
    ∃ gs, getGrid spatial step = .ok gs ∧
      gs.getD i [] = [axisMin spatial i, axisMax spatial i + 1] := by
  subst hn
  refine ⟨(List.range (spatial.headD []).length).map (fun j =>
      edges1 (axisMin spatial j) (axisMax spatial j) (steps.getD j none)), ?_, ?_⟩
  · unfold getGrid
    rw [hui]
  · rw [getD_map_range _ i hi, hz]
    rfl

/-! ### Claim C7: shape of the edge arrays produced by `get_grid` -/

theorem foldl_min_le (x : ℚ) (cs : List ℚ) : cs.foldl min x ≤ x := by
  induction cs generalizing x with
  | nil => exact le_refl x
  | cons c cs ih => exact le_trans (ih (min x c)) (min_le_left x c)

theorem le_foldl_max (x : ℚ) (cs : List ℚ) : x ≤ cs.foldl max x := by
  induction cs generalizing x with
  | nil => exact le_refl x
  | cons c cs ih => exact le_trans (le_max_left x c) (ih (max x c))

theorem axisMin_le_axisMax (spatial : List (List ℚ)) (i : ℕ) (h : spatial ≠ []) :
    axisMin spatial i ≤ axisMax spatial i := by
  rcases spatial with _ | ⟨p, ps⟩
  · exact absurd rfl h
  · show (List.map (fun q => q.getD i 0) ps).foldl min (p.getD i 0) ≤
        (List.map (fun q => q.getD i 0) ps).foldl max (p.getD i 0)
    exact le_trans (foldl_min_le _ _) (le_foldl_max _ _)

theorem linspace_step (a v : ℚ) (m : ℕ) :
    linspace a (a + (m : ℚ) * v) (m + 1) =
      (List.range (m + 1)).map (fun k : ℕ => a + (k : ℚ) * v) := by
  unfold linspace
  apply List.map_congr_left
  intro k hk
  rcases Nat.eq_zero_or_pos m with hm | hm
  · subst hm
    have hk0 : k = 0 := by simpa using hk
    subst hk0
    norm_num
  · have hm0 : ((m : ℚ)) ≠ 0 := Nat.cast_ne_zero.mpr (Nat.pos_iff_ne_zero.mp hm)
    have h1 : ((m + 1 : ℕ) : ℚ) - 1 = (m : ℚ) := by
      push_cast
      ring
    have h2 : a + (m : ℚ) * v - a = (m : ℚ) * v := by ring
    rw [h1, h2, mul_div_assoc, mul_div_cancel_left₀ v hm0]

theorem pairwise_lt_map_linear (a v : ℚ) (hv : 0 < v) (m : ℕ) :
    List.Pairwise (· < ·) ((List.range m).map (fun k : ℕ => a + (k : ℚ) * v)) := by
  refine List.Pairwise.map (fun k : ℕ => a + (k : ℚ) * v)
    (fun x y hxy => ?_) (List.pairwise_lt_range m)
  show a + (x : ℚ) * v < a + (y : ℚ) * v
  have hq : (x : ℚ) < (y : ℚ) := by exact_mod_cast hxy
  have := mul_lt_mul_of_pos_right hq hv
  linarith

theorem pairwise_sentinel (amin amax : ℚ) (h : amin ≤ amax) :
    List.Pairwise (· < ·) [amin, amax + 1] := by
  refine List.pairwise_cons.mpr ⟨?_, List.pairwise_singleton _ _⟩
  intro b hb
  rw [List.mem_singleton] at hb
  subst hb
  linarith

theorem uiStep_ok_any_false (step : StepArg) (n : ℕ) (steps : List (Option ℚ))
    (h : uiStep step n = .ok steps) : steps.any badStep = false := by
  cases step with
  | seq l =>
      by_cases hln : l.length ≠ n
      · rw [uiStep_seq, if_pos hln] at h
        exact Except.noConfusion h
      · rw [uiStep_seq, if_neg hln] at h
        by_cases hbad : l.any badStep
        · rw [if_pos hbad] at h
          exact Except.noConfusion h
        · rw [if_neg hbad] at h
          injection h with h2
          subst h2
          exact Bool.eq_false_iff.mpr hbad
  | scalar s =>
      by_cases hbad : (List.replicate n s).any badStep
      · rw [uiStep_scalar, if_pos hbad] at h
        exact Except.noConfusion h
      · rw [uiStep_scalar, if_neg hbad] at h
        injection h with h2
        subst h2
        exact Bool.eq_false_iff.mpr hbad

theorem steps_entry_nonneg (steps : List (Option ℚ))
    (hall : steps.any badStep = false) (s : Option ℚ) (hs : s ∈ steps) (v : ℚ)
    (hv : s = some v) : 0 ≤ v := by
  by_contra hneg
  push_neg at hneg
  have hb : steps.any badStep = true :=
    List.any_eq_true.mpr ⟨s, hs, hv ▸ badStep_neg v hneg⟩
  rw [hall] at hb
  exact Bool.noConfusion hb

theorem getD_mem_of_eq_some (steps : List (Option ℚ)) (j : ℕ) (v : ℚ)
    (h : steps.getD j none = some v) : some v ∈ steps := by
  by_cases hj : j < steps.length
  · rw [List.getD_eq_getElem?_getD, List.getElem?_eq_getElem hj] at h
    simp only [Option.getD_some] at h
    rw [← h]
    exact List.getElem_mem hj
  · rw [List.getD_eq_getElem?_getD, List.getElem?_eq_none (le_of_not_lt hj)] at h
    exact Option.noConfusion h

theorem edges1_pos (amin amax v : ℚ) (hv : v ≠ 0) :
    edges1 amin amax (some v) =
      linspace amin (amin + ((ratTrunc ((amax - amin) / v)).toNat : ℚ) * v)
        ((ratTrunc ((amax - amin) / v)).toNat + 1) := by
  show (if v ≠ 0 then
      linspace amin (amin + ((ratTrunc ((amax - amin) / v)).toNat : ℚ) * v)
        ((ratTrunc ((amax - amin) / v)).toNat + 1)
    else [amin, amax + 1]) = _
  rw [if_pos hv]

/-- C7 (confirmed): on a nonempty rectangular point set with validated
steps, `get_grid` succeeds with one edge array per axis; every produced
edge array is strictly increasing; and every axis with a declared positive
step `v` gets exactly `bins + 1` evenly spaced values
`amin, amin + v, ..., amin + bins * v`, where
`bins = trunc((amax - amin) / v)` is computed by truncation toward zero on
the bounding extrema of that axis. -/
theorem c7_get_grid_edges (spatial : List (List ℚ)) (n : ℕ) (step : StepArg)
    (steps : List (Option ℚ)) (hn : n = (spatial.headD []).length)
    (hrect : Rect n spatial) (hui : uiStep step n = .ok steps) :
    ∃ gs, getGrid spatial step = .ok gs ∧ gs.length = n
      ∧ (∀ l ∈ gs, List.Pairwise (· < ·) l)
      ∧ (∀ i v, i < n → steps.getD i none = some v → 0 < v →
          gs.getD i [] =
            (List.range
                ((ratTrunc ((axisMax spatial i - axisMin spatial i) / v)).toNat
                  + 1)).map
              (fun k : ℕ => axisMin spatial i + (k : ℚ) * v)) := by
  subst hn
  refine ⟨(List.range (spatial.headD []).length).map (fun j =>
      edges1 (axisMin spatial j) (axisMax spatial j) (steps.getD j none)),
    ?_, by simp, ?_, ?_⟩
  · unfold getGrid
    rw [hui]
  · intro l hl
    rw [List.mem_map] at hl
    obtain ⟨j, hj, rfl⟩ := hl
    have hminmax : axisMin spatial j ≤ axisMax spatial j :=
      axisMin_le_axisMax spatial j hrect.1
    rcases hsj : steps.getD j none with _ | v
    · exact pairwise_sentinel _ _ hminmax
    · have h0v : 0 ≤ v :=
        steps_entry_nonneg steps
          (uiStep_ok_any_false step _ steps hui) _
          (getD_mem_of_eq_some steps j v hsj) v rfl
      rcases eq_or_lt_of_le h0v with hv0 | hvpos
      · rw [← hv0]
        exact pairwise_sentinel _ _ hminmax
      · rw [edges1_pos _ _ v (ne_of_gt hvpos), linspace_step]
        exact pairwise_lt_map_linear _ v hvpos _
  · intro i v hi hsv hv
    rw [getD_map_range _ i hi, hsv,
      edges1_pos _ _ v (ne_of_gt hv), linspace_step]

/-- C7 witness: two 1-D points `0` and `5/2` with unit step. -/
theorem c7_get_grid_edges_witness :
    ∃ gs, getGrid [[(0 : ℚ)], [5/2]] (.scalar (some 1)) = .ok gs ∧ gs.length = 1
      ∧ (∀ l ∈ gs, List.Pairwise (· < ·) l)
      ∧ (∀ i v, i < 1 → [some (1 : ℚ)].getD i none = some v → 0 < v →
          gs.getD i [] =
            (List.range
                ((ratTrunc ((axisMax [[(0 : ℚ)], [5/2]] i -
                    axisMin [[(0 : ℚ)], [5/2]] i) / v)).toNat + 1)).map
              (fun k : ℕ => axisMin [[(0 : ℚ)], [5/2]] i + (k : ℚ) * v)) :=
  c7_get_grid_edges [[(0 : ℚ)], [5/2]] 1 (.scalar (some 1)) [some 1] rfl
    (by decide) rfl

/-! ### Claim C8: the coordinate transforms are exact inverses -/

theorem swap01_swap01 (l : List ℕ) : swap01 (swap01 l) = l := by
  match l with
  | [] => rfl
  | [x] => rfl
  | x :: y :: r => rfl

theorem validIdx_cons_cons {s0 s1 : ℕ} {r : List ℕ} {i j : ℕ} {t : List ℕ}
    (h : validIdx (s0 :: s1 :: r) (i :: j :: t) = true) : i < s0 ∧ j < s1 := by
  unfold validIdx at h
  simp only [Bool.and_eq_true, decide_eq_true_eq, List.all_eq_true,
    List.zip_cons_cons] at h
  exact ⟨h.2 (i, s0) (by simp), h.2 (j, s1) (by simp [List.mem_cons])⟩

/-- C8 (confirmed): for every 2-D and 3-D array, the storage-order
transform (`_geo_to_np_coordinate`: swap the two leading axes, then
reverse the new first axis) and the geographic-order transform
(`_np_to_geo_coordinate`) are exact inverses: both round trips return the
original array (same shape, same entry at every valid index). -/
theorem c8_coordinate_roundtrip (a : NDA)
    (hdim : a.shape.length = 2 ∨ a.shape.length = 3) :
    ExtEq (npToGeo (geoToNp a)) a ∧ ExtEq (geoToNp (npToGeo a)) a := by
  obtain ⟨s0, s1, r, hs⟩ : ∃ s0 s1 r, a.shape = s0 :: s1 :: r := by
    rcases hsp : a.shape with _ | ⟨s0, t⟩
    · rw [hsp] at hdim
      simp at hdim
    · rcases t with _ | ⟨s1, r⟩
      · rw [hsp] at hdim
        simp at hdim
      · exact ⟨s0, s1, r, rfl⟩
  constructor
  · refine ⟨swap01_swap01 a.shape, ?_⟩
    intro idx hidx
    replace hidx : validIdx a.shape idx = true := by
      rw [← swap01_swap01 a.shape]
      exact hidx
    rw [hs] at hidx
    rcases idx with _ | ⟨i, _ | ⟨j, t⟩⟩
    · unfold validIdx at hidx
      simp at hidx
    · unfold validIdx at hidx
      simp at hidx
    · obtain ⟨hi, hj⟩ := validIdx_cons_cons hidx
      show a.val (geoSrcIdx a.shape (npSrcIdx (swap01 a.shape) (i :: j :: t))) =
        a.val (i :: j :: t)
      rw [hs]
      show a.val (geoSrcIdx (s0 :: s1 :: r) ((s1 - 1 - j) :: i :: t)) =
        a.val (i :: j :: t)
      unfold geoSrcIdx
      have hjj : s1 - 1 - (s1 - 1 - j) = j := by omega
      simp only [List.getD_cons_succ, List.getD_cons_zero, hjj]
  · refine ⟨swap01_swap01 a.shape, ?_⟩
    intro idx hidx
    replace hidx : validIdx a.shape idx = true := by
      rw [← swap01_swap01 a.shape]
      exact hidx
    rw [hs] at hidx
    rcases idx with _ | ⟨i, _ | ⟨j, t⟩⟩
    · unfold validIdx at hidx
      simp at hidx
    · unfold validIdx at hidx
      simp at hidx
    · obtain ⟨hi, hj⟩ := validIdx_cons_cons hidx
      show a.val (npSrcIdx a.shape (geoSrcIdx (swap01 a.shape) (i :: j :: t))) =
        a.val (i :: j :: t)
      rw [hs]
      show a.val (npSrcIdx (s0 :: s1 :: r) (j :: (s0 - 1 - i) :: t)) =
        a.val (i :: j :: t)
      unfold npSrcIdx
      have hii : s0 - 1 - (s0 - 1 - i) = i := by omega
      simp only [List.getD_cons_zero, hii]

/-- C8 witness: the round trips evaluated on a concrete 1-by-2 array. -/
theorem c8_coordinate_roundtrip_witness :
    ExtEq (npToGeo (geoToNp ⟨[1, 2], fun idx => (idx.sum : ℚ)⟩))
        ⟨[1, 2], fun idx => (idx.sum : ℚ)⟩
    ∧ ExtEq (geoToNp (npToGeo ⟨[1, 2], fun idx => (idx.sum : ℚ)⟩))
        ⟨[1, 2], fun idx => (idx.sum : ℚ)⟩ :=
  c8_coordinate_roundtrip ⟨[1, 2], fun idx => (idx.sum : ℚ)⟩ (Or.inl rfl)

/-- C10 witness: scalar step `0` on a concrete 1-D point set. -/
theorem c10_zero_step_witness :
    ∃ gs, getGrid [[(0 : ℚ)], [2]] (.scalar (some 0)) = .ok gs ∧
      gs.getD 0 [] = [axisMin [[(0 : ℚ)], [2]] 0, axisMax [[(0 : ℚ)], [2]] 0 + 1] :=
  c10_zero_step [[(0 : ℚ)], [2]] 1 (.scalar (some 0)) [some 0] 0 rfl (by decide)
    rfl (by decide) rfl

/-! ### Claim C5: the mean method against the density method -/

/-- C5 (confirmed): at every valid index of the storage-order grids
returned by `bin`, the density grid holds the number of points of the
corresponding spatial cell and is masked exactly when that count is 0; the
mean grid is masked at exactly the same cells, and wherever the count is
positive it holds the sum of the cell's feature values divided by the
cell's point count. -/
theorem c5_bin_mean (grid spatial : List (List ℚ)) (feature : List ℚ)
    (idx : List ℕ) (g gd : MGrid) (hlen : feature.length = spatial.length)
    (hm : bin grid spatial (some feature) ("mean") = .ok g)
    (hd : bin grid spatial none ("density") = .ok gd)
    (hidx : validIdx g.shape idx = true) :
    gd.val idx =
      ((cellPts grid spatial (geoSrcIdx (gridShape grid) idx)).length : ℚ)
    ∧ (gd.mask idx = true ↔
        (cellPts grid spatial (geoSrcIdx (gridShape grid) idx)).length = 0)
    ∧ (g.mask idx = true ↔
        (cellPts grid spatial (geoSrcIdx (gridShape grid) idx)).length = 0)
    ∧ (0 < (cellPts grid spatial (geoSrcIdx (gridShape grid) idx)).length →
        g.val idx =
          ((cellPairs grid spatial feature
              (geoSrcIdx (gridShape grid) idx)).map Prod.snd).sum /
            ((cellPts grid spatial (geoSrcIdx (gridShape grid) idx)).length : ℚ)) := by
  have hg : g = geoToNpM (binMean grid spatial feature) := by
    have h0 : bin grid spatial (some feature) ("mean") =
        .ok (geoToNpM (binMean grid spatial feature)) := rfl
    rw [h0] at hm
    exact (Except.ok.inj hm).symm
  have hgd : gd = geoToNpM (binDensity grid spatial) := by
    have h0 : bin grid spatial none ("density") =
        .ok (geoToNpM (binDensity grid spatial)) := rfl
    rw [h0] at hd
    exact (Except.ok.inj hd).symm
  subst hg
  subst hgd
  refine ⟨rfl, ?_, ?_, fun _ => rfl⟩
  · show decide ((cellPts grid spatial
        (geoSrcIdx (gridShape grid) idx)).length = 0) = true ↔ _
    rw [decide_eq_true_eq]
  · show decide ((cellPts grid spatial
        (geoSrcIdx (gridShape grid) idx)).length = 0) = true ↔ _
    rw [decide_eq_true_eq]

/-- C5 witness: two points sharing one cell with feature values 4 and 6. -/
theorem c5_bin_mean_witness :
    (geoToNpM (binDensity [[(0 : ℚ), 1, 2], [0, 2]]
        [[1/2, 1/2], [1/2, 3/2]])).val [0, 0] =
      ((cellPts [[(0 : ℚ), 1, 2], [0, 2]] [[1/2, 1/2], [1/2, 3/2]]
        (geoSrcIdx (gridShape [[(0 : ℚ), 1, 2], [0, 2]]) [0, 0])).length : ℚ)
    ∧ ((geoToNpM (binDensity [[(0 : ℚ), 1, 2], [0, 2]]
          [[1/2, 1/2], [1/2, 3/2]])).mask [0, 0] = true ↔
        (cellPts [[(0 : ℚ), 1, 2], [0, 2]] [[1/2, 1/2], [1/2, 3/2]]
          (geoSrcIdx (gridShape [[(0 : ℚ), 1, 2], [0, 2]]) [0, 0])).length = 0)
    ∧ ((geoToNpM (binMean [[(0 : ℚ), 1, 2], [0, 2]]
          [[1/2, 1/2], [1/2, 3/2]] [4, 6])).mask [0, 0] = true ↔
        (cellPts [[(0 : ℚ), 1, 2], [0, 2]] [[1/2, 1/2], [1/2, 3/2]]
          (geoSrcIdx (gridShape [[(0 : ℚ), 1, 2], [0, 2]]) [0, 0])).length = 0)
    ∧ (0 < (cellPts [[(0 : ℚ), 1, 2], [0, 2]] [[1/2, 1/2], [1/2, 3/2]]
          (geoSrcIdx (gridShape [[(0 : ℚ), 1, 2], [0, 2]]) [0, 0])).length →
        (geoToNpM (binMean [[(0 : ℚ), 1, 2], [0, 2]]
            [[1/2, 1/2], [1/2, 3/2]] [4, 6])).val [0, 0] =
          ((cellPairs [[(0 : ℚ), 1, 2], [0, 2]] [[1/2, 1/2], [1/2, 3/2]] [4, 6]
              (geoSrcIdx (gridShape [[(0 : ℚ), 1, 2], [0, 2]]) [0, 0])).map
            Prod.snd).sum /
            ((cellPts [[(0 : ℚ), 1, 2], [0, 2]] [[1/2, 1/2], [1/2, 3/2]]
              (geoSrcIdx (gridShape [[(0 : ℚ), 1, 2], [0, 2]]) [0, 0])).length : ℚ)) :=
  c5_bin_mean [[(0 : ℚ), 1, 2], [0, 2]] [[1/2, 1/2], [1/2, 3/2]] [4, 6] [0, 0]
    (geoToNpM (binMean [[(0 : ℚ), 1, 2], [0, 2]] [[1/2, 1/2], [1/2, 3/2]] [4, 6]))
    (geoToNpM (binDensity [[(0 : ℚ), 1, 2], [0, 2]] [[1/2, 1/2], [1/2, 3/2]]))
    (by decide) rfl rfl (by decide)

/-! ### Claim C6: the mode method, ties, and masking -/

theorem modeFold_const (c : ℚ → ℕ) (vs : List ℚ) (acc : ℕ × ℚ)
    (h : ∀ v ∈ vs, c v ≤ acc.1) :
    vs.foldl (fun acc v => if acc.1 < c v then (c v, v) else acc) acc = acc := by
  induction vs generalizing acc with
  | nil => rfl
  | cons v vs ih =>
      rw [List.foldl_cons, if_neg (not_lt.mpr (h v (List.mem_cons_self v vs)))]
      exact ih acc (fun w hw => h w (List.mem_cons_of_mem v hw))

theorem modeFold_first_max (c : ℚ → ℕ) (vs : List ℚ) (acc : ℕ × ℚ) (v1 : ℚ)
    (hsort : List.Pairwise (· < ·) vs) (hmem : v1 ∈ vs) (hacc : acc.1 < c v1)
    (hmax : ∀ v ∈ vs, c v ≤ c v1) (hmin : ∀ v ∈ vs, c v = c v1 → v1 ≤ v) :
    vs.foldl (fun acc v => if acc.1 < c v then (c v, v) else acc) acc =
      (c v1, v1) := by
  induction vs generalizing acc with
  | nil => exact absurd hmem (List.not_mem_nil v1)
  | cons v vs ih =>
      rw [List.foldl_cons]
      rcases List.mem_cons.mp hmem with hv | hv
      · subst hv
        rw [if_pos hacc]
        exact modeFold_const c vs (c v1, v1)
          (fun w hw => hmax w (List.mem_cons_of_mem _ hw))
      · have hvlt : v < v1 := (List.pairwise_cons.mp hsort).1 v1 hv
        have hcv : c v < c v1 := by
          rcases lt_or_eq_of_le (hmax v (List.mem_cons_self v vs)) with h | h
          · exact h
          · exact absurd (hmin v (List.mem_cons_self v vs) h) (not_le.mpr hvlt)
        have hsort2 := (List.pairwise_cons.mp hsort).2
        have hmax2 := fun w hw => hmax w (List.mem_cons_of_mem v hw)
        have hmin2 := fun w hw => hmin w (List.mem_cons_of_mem v hw)
        by_cases hstep : acc.1 < c v
        · rw [if_pos hstep]
          exact ih (c v, v) hsort2 hv hcv hmax2 hmin2
        · rw [if_neg hstep]
          exact ih acc hsort2 hv hacc hmax2 hmin2

theorem modeFold_fst_zero_aux (c : ℚ → ℕ) (vs : List ℚ) (acc : ℕ × ℚ) :
    (vs.foldl (fun acc v => if acc.1 < c v then (c v, v) else acc) acc).1 = 0 ↔
      (acc.1 = 0 ∧ ∀ v ∈ vs, c v = 0) := by
  induction vs generalizing acc with
  | nil => simp
  | cons v vs ih =>
      rw [List.foldl_cons]
      by_cases h : acc.1 < c v
      · rw [if_pos h, ih]
        simp only [List.mem_cons]
        constructor
        · rintro ⟨hcv, _⟩
          exact absurd h (by omega)
        · rintro ⟨hacc0, hall⟩
          have hcv0 : c v = 0 := hall v (Or.inl rfl)
          exact absurd h (by omega)
      · rw [if_neg h, ih]
        simp only [List.mem_cons]
        constructor
        · rintro ⟨hacc0, hall⟩
          refine ⟨hacc0, fun w hw => ?_⟩
          rcases hw with hw | hw
          · subst hw
            omega
          · exact hall w hw
        · rintro ⟨hacc0, hall⟩
          exact ⟨hacc0, fun w hw => hall w (Or.inr hw)⟩

theorem modeFold_fst_eq_zero_iff (c : ℚ → ℕ) (vs : List ℚ) :
    (modeFold c vs).1 = 0 ↔ ∀ v ∈ vs, c v = 0 := by
  unfold modeFold
  rw [modeFold_fst_zero_aux]
  simp

theorem uniqueSorted_sorted_lt (l : List ℚ) :
    List.Pairwise (· < ·) (uniqueSorted l) := by
  have hs : List.Sorted (· ≤ ·) (uniqueSorted l) :=
    List.sorted_insertionSort (· ≤ ·) l.dedup
  have hn : (uniqueSorted l).Nodup :=
    ((List.perm_insertionSort (· ≤ ·) l.dedup).nodup_iff).mpr l.nodup_dedup
  exact hs.lt_of_le hn

/-- C6 (confirmed): in the storage-order grid returned by `bin` with
method `'mode'`, a cell is masked iff no candidate value has a nonzero
point count there; and whenever a candidate `v1` has a positive count that
no candidate exceeds and that every tied candidate only attains at values
`≥ v1` (so in a tie `v1` is the numerically smallest winner), the cell is
unmasked and holds exactly `v1`. -/
theorem c6_bin_mode (grid spatial : List (List ℚ)) (feature : List ℚ)
    (idx : List ℕ) (g : MGrid) (hlen : feature.length = spatial.length)
    (hbin : bin grid spatial (some feature) ("mode") = .ok g)
    (hidx : validIdx g.shape idx = true) :
    (g.mask idx = true ↔
      ∀ v ∈ uniqueSorted feature,
        cellVCount grid spatial feature v (geoSrcIdx (gridShape grid) idx) = 0)
    ∧ (∀ v1 ∈ uniqueSorted feature,
        0 < cellVCount grid spatial feature v1 (geoSrcIdx (gridShape grid) idx) →
        (∀ v ∈ uniqueSorted feature,
          cellVCount grid spatial feature v (geoSrcIdx (gridShape grid) idx) ≤
            cellVCount grid spatial feature v1 (geoSrcIdx (gridShape grid) idx)) →
        (∀ v ∈ uniqueSorted feature,
          cellVCount grid spatial feature v (geoSrcIdx (gridShape grid) idx) =
            cellVCount grid spatial feature v1 (geoSrcIdx (gridShape grid) idx) →
          v1 ≤ v) →
        g.mask idx = false ∧ g.val idx = v1) := by
  have hg : g = geoToNpM (binMode grid spatial feature) := by
    have h0 : bin grid spatial (some feature) ("mode") =
        .ok (geoToNpM (binMode grid spatial feature)) := rfl
    rw [h0] at hbin
    exact (Except.ok.inj hbin).symm
  subst hg
  constructor
  · show decide ((modeFold
        (fun v => cellVCount grid spatial feature v
          (geoSrcIdx (gridShape grid) idx))
        (uniqueSorted feature)).1 = 0) = true ↔ _
    rw [decide_eq_true_eq]
    exact modeFold_fst_eq_zero_iff _ _
  · intro v1 hmem hpos hmax hmin
    have hfold : modeFold
        (fun v => cellVCount grid spatial feature v
          (geoSrcIdx (gridShape grid) idx))
        (uniqueSorted feature) =
        (cellVCount grid spatial feature v1 (geoSrcIdx (gridShape grid) idx),
          v1) :=
      modeFold_first_max _ _ (0, 0) v1 (uniqueSorted_sorted_lt feature) hmem
        hpos hmax hmin
    constructor
    · show decide ((modeFold
          (fun v => cellVCount grid spatial feature v
            (geoSrcIdx (gridShape grid) idx))
          (uniqueSorted feature)).1 = 0) = false
      rw [hfold]
      exact decide_eq_false (by omega)
    · show (modeFold
          (fun v => cellVCount grid spatial feature v
            (geoSrcIdx (gridShape grid) idx))
          (uniqueSorted feature)).2 = v1
      rw [hfold]

/-- C6 witness: four points in one cell with features `[3, 3, 5, 5]` — a
nonzero tie between candidates 3 and 5 — where the cell holds the smaller
value 3 and is unmasked. -/
theorem c6_bin_mode_witness :
    (geoToNpM (binMode [[(0 : ℚ), 2], [0, 2]]
        [[1, 1], [1, 1], [1, 1], [1, 1]] [3, 3, 5, 5])).mask [0, 0] = false
    ∧ (geoToNpM (binMode [[(0 : ℚ), 2], [0, 2]]
        [[1, 1], [1, 1], [1, 1], [1, 1]] [3, 3, 5, 5])).val [0, 0] = 3 :=
  (c6_bin_mode [[(0 : ℚ), 2], [0, 2]] [[1, 1], [1, 1], [1, 1], [1, 1]]
      [3, 3, 5, 5] [0, 0]
      (geoToNpM (binMode [[(0 : ℚ), 2], [0, 2]]
        [[1, 1], [1, 1], [1, 1], [1, 1]] [3, 3, 5, 5]))
      (by decide) rfl (by decide)).2 3 (by decide) (by decide) (by decide)
    (by decide)

/-! ### Claim C9: positional squash on single-valid-cell columns -/

theorem filter_range_unique (n : ℕ) (k0 : ℕ) (p : ℕ → Bool) (hk : k0 < n)
    (hpk : p k0 = true) (hother : ∀ k, k < n → k ≠ k0 → p k = false) :
    (List.range n).filter p = [k0] := by
  induction n with
  | zero => omega
  | succ n ih =>
      rw [List.range_succ, List.filter_append]
      by_cases hkn : k0 = n
      · subst hkn
        have h1 : (List.range k0).filter p = [] := by
          rw [List.filter_eq_nil_iff]
          intro a ha
          rw [List.mem_range] at ha
          rw [hother a (by omega) (by omega)]
          exact Bool.noConfusion
        rw [h1]
        simp [hpk]
      · have h2 : (List.range n).filter p = [k0] :=
          ih (by omega) (fun k hklt hne => hother k (by omega) hne)
        rw [h2]
        have h3 : p n = false := hother n (by omega) (fun he => hkn he.symm)
        simp [h3]

theorem medianSorted_single (x : ℚ) : medianSorted [x] = x := by
  unfold medianSorted
  simp

theorem chosenIdx_top_single (k0 : ℕ) : chosenIdx ("top") [k0] = k0 := by
  unfold chosenIdx
  rw [if_pos rfl]
  show max 0 k0 = k0
  omega

theorem chosenIdx_center_single (k0 : ℕ) : chosenIdx ("center") [k0] = k0 := by
  unfold chosenIdx
  rw [if_neg (by decide), if_pos rfl]
  show (⌊medianSorted [(k0 : ℚ)]⌋).toNat = k0
  rw [medianSorted_single, Int.floor_natCast]
  exact Int.toNat_natCast k0

theorem chosenIdx_bottom_single (k0 : ℕ) : chosenIdx ("bottom") [k0] = k0 := by
  unfold chosenIdx
  rw [if_neg (by decide), if_neg (by decide)]
  rfl

/-- C9 (confirmed): for every 3-D voxel grid, axis and raster column, if
exactly one cell along the squashed axis is valid then each of the three
positional methods `'top'`, `'center'`, `'bottom'` produces that cell's
value at that column, unmasked; and a column with no valid cell is masked
in the output, for each of the three methods. -/
theorem c9_squash_position (g : VGrid3) (axis i j : ℕ) (ha : axis < 3)
    (hi : i < (restDims g axis).1) (hj : j < (restDims g axis).2) :
    (∀ k0, k0 < sizeAlong g axis → maskAt3 g axis k0 i j = false →
      (∀ k, k < sizeAlong g axis → k ≠ k0 → maskAt3 g axis k i j = true) →
      ∀ m, m = "top" ∨ m = "center" ∨ m = "bottom" →
        squash g m axis = some (squashPos g m axis)
        ∧ (squashPos g m axis).mask i j = false
        ∧ (squashPos g m axis).val i j = valAt3 g axis k0 i j)
    ∧ (validAlong g axis i j = [] →
        ∀ m, m = "top" ∨ m = "center" ∨ m = "bottom" →
          squash g m axis = some (squashPos g m axis)
          ∧ (squashPos g m axis).mask i j = true) := by
  constructor
  · intro k0 hk0 hvalid huniq m hm
    have hva : validAlong g axis i j = [k0] := by
      unfold validAlong
      apply filter_range_unique _ k0 _ hk0
      · rw [hvalid]
        rfl
      · intro k hk hne
        rw [huniq k hk hne]
        rfl
    have hchosen : chosenIdx m [k0] = k0 := by
      rcases hm with hm | hm | hm <;> subst hm
      · exact chosenIdx_top_single k0
      · exact chosenIdx_center_single k0
      · exact chosenIdx_bottom_single k0
    refine ⟨by unfold squash; rw [if_pos hm], ?_, ?_⟩
    · show (if (validAlong g axis i j).isEmpty then true
          else maskAt3 g axis (chosenIdx m (validAlong g axis i j)) i j) = false
      rw [hva]
      rw [if_neg (by simp), hchosen]
      exact hvalid
    · show (if (validAlong g axis i j).isEmpty then 0
          else valAt3 g axis (chosenIdx m (validAlong g axis i j)) i j) =
        valAt3 g axis k0 i j
      rw [hva]
      rw [if_neg (by simp), hchosen]
  · intro hempty m hm
    refine ⟨by unfold squash; rw [if_pos hm], ?_⟩
    show (if (validAlong g axis i j).isEmpty then true
        else maskAt3 g axis (chosenIdx m (validAlong g axis i j)) i j) = true
    rw [hempty]
    rfl

/-- C9 witness: a 1-by-1-by-2 grid whose column holds exactly one valid
cell (depth 0, value 5), squashed with `'top'` along the last axis. -/
theorem c9_squash_position_witness :
    squash ⟨1, 1, 2, fun _ _ _ => 5, fun _ _ k => decide (k = 1)⟩ ("top") 2 =
      some (squashPos ⟨1, 1, 2, fun _ _ _ => 5,
        fun _ _ k => decide (k = 1)⟩ ("top") 2)
    ∧ (squashPos ⟨1, 1, 2, fun _ _ _ => 5,
        fun _ _ k => decide (k = 1)⟩ ("top") 2).mask 0 0 = false
    ∧ (squashPos ⟨1, 1, 2, fun _ _ _ => 5,
        fun _ _ k => decide (k = 1)⟩ ("top") 2).val 0 0 =
      valAt3 ⟨1, 1, 2, fun _ _ _ => 5, fun _ _ k => decide (k = 1)⟩ 2 0 0 0 :=
  (c9_squash_position ⟨1, 1, 2, fun _ _ _ => 5, fun _ _ k => decide (k = 1)⟩
      2 0 0 (by decide) (by decide) (by decide)).1 0 (by decide) (by decide)
    (by decide) ("top") (Or.inl rfl)

end Idefix
